import Mathlib

/-!
Verification of the steam-stats client-side cache and enrichment layer.

Shallow embedding of:
- src/lib/cache.ts (Dexie-backed cache accessors, batch enrichment engine);
- src/app/components/ValueAnalysis.tsx (the cache-usability guard of fetchPrices);
- src/app/api/steam/app/[appid]/route.ts (fetchWithRateLimit retry loop);
- the collage layout engine (spiralPlacement, getBoundingBox and the
  normalization step of generateCollage).

Conventions of the embedding:
- JS timestamps and durations are integers (milliseconds), so subtraction can
  go negative exactly as in JS; geometric quantities are rationals.
- A Dexie table is a list of records searched by its key field; table.get is
  the first record whose key matches, table.put replaces the first matching
  record or appends, table.delete removes matching records.
- A JS Map is an insertion-ordered association list; Map.set overwrites an
  existing key in place or appends.
- Stateful functions take the store and return the updated store; thrown and
  caught JS exceptions are modelled by the explicit outcome arguments.
-/

namespace SteamStats

/-- Cache durations from src/lib/cache.ts, lines 46 to 49 (milliseconds). -/
def GAMES_CACHE_DURATION : Int := 1000 * 60 * 30

/-- Seven days, for the personality cache. -/
def PERSONALITY_CACHE_DURATION : Int := 1000 * 60 * 60 * 24 * 7

/-- Thirty days, for the game details cache. -/
def GAME_DETAILS_CACHE_DURATION : Int := 1000 * 60 * 60 * 24 * 30

/-- Twenty four hours, for the reviews cache. -/
def REVIEWS_CACHE_DURATION : Int := 1000 * 60 * 60 * 24

/-- The fields of SteamGame (src/app/types/steam) that the embedded code
reads; the remaining fields never influence the embedded functions. -/
structure SteamGame where
  appid : Nat
  name : String
  playtime_forever : Rat
deriving DecidableEq

/-- GamesCache record, src/lib/cache.ts lines 8 to 12. -/
structure GamesCache where
  steamId : String
  games : List SteamGame
  timestamp : Int
deriving DecidableEq

/-- PersonalityCache record, src/lib/cache.ts lines 14 to 19; the MBTI result
payload is an opaque type parameter. -/
structure PersonalityCache (R : Type) where
  steamId : String
  result : R
  gamesHash : String
  timestamp : Int
deriving DecidableEq

/-- GameDetails record, src/lib/cache.ts lines 21 to 28.  The interface in
src/lib/cache.ts omits a currency field, but the current ValueAnalysis
component reads cached.currency and passes a currency argument when writing,
while records written by the batch path carry none; the stored shape is
therefore an optional currency.  metacritic is the score of the metacritic
object, or none for null. -/
structure GameDetails where
  appid : Nat
  genres : List String
  price : Option Rat
  developers : List String
  metacritic : Option Rat
  currency : Option String
  timestamp : Int
deriving DecidableEq

/-- UserReview record, src/lib/cache.ts lines 30 to 36. -/
structure UserReview where
  appId : String
  gameName : String
  recommended : Bool
  reviewText : String
  hoursPlayed : String
deriving DecidableEq

/-- ReviewsCache record, src/lib/cache.ts lines 38 to 43. -/
structure ReviewsCache where
  steamId : String
  reviews : List UserReview
  totalReviews : Nat
  timestamp : Int
deriving DecidableEq

/-- Dexie table.get: first record whose key field matches. -/
def dexieGet {α κ : Type} [BEq κ] (key : α → κ) : List α → κ → Option α
  | [], _ => none
  | r :: rest, k => if key r == k then some r else dexieGet key rest k

/-- Dexie table.delete: removes the records whose key field matches. -/
def dexieDelete {α κ : Type} [BEq κ] (key : α → κ) (store : List α) (k : κ) : List α :=
  store.filter (fun r => !(key r == k))

/-- Dexie table.put: replaces the first record with the same key, or appends. -/
def dexiePut {α κ : Type} [BEq κ] (key : α → κ) : List α → α → List α
  | [], r => [r]
  | r' :: rest, r => if key r' == key r then r :: rest else r' :: dexiePut key rest r

/-- JS Map lookup. -/
def mapGet {κ α : Type} [BEq κ] : List (κ × α) → κ → Option α
  | [], _ => none
  | p :: rest, k => if p.1 == k then some p.2 else mapGet rest k

/-- JS Map.set: overwrites an existing key in place, otherwise appends. -/
def mapSet {κ α : Type} [BEq κ] : List (κ × α) → κ → α → List (κ × α)
  | [], k, v => [(k, v)]
  | p :: rest, k, v => if p.1 == k then (k, v) :: rest else p :: mapSet rest k v

/-- getCachedGames, src/lib/cache.ts lines 71 to 89: TTL-checked read that
deletes an expired record.  Returns the read result and the updated store. -/
def getCachedGames (now : Int) (store : List GamesCache) (steamId : String) :
    Option (List SteamGame) × List GamesCache :=
  match dexieGet (fun c => c.steamId) store steamId with
  | none => (none, store)
  | some cached =>
    if now - cached.timestamp > GAMES_CACHE_DURATION then
      (none, dexieDelete (fun c => c.steamId) store steamId)
    else
      (some cached.games, store)

/-- setCachedGames, src/lib/cache.ts lines 91 to 104. -/
def setCachedGames (now : Int) (store : List GamesCache) (steamId : String)
    (games : List SteamGame) : List GamesCache :=
  dexiePut (fun c => c.steamId) store { steamId := steamId, games := games, timestamp := now }

/-- Top-game sample passed to the personality fingerprint, an array of
objects with name and hours fields. -/
structure TopGame where
  name : String
  hours : Rat
deriving DecidableEq

/-- generateGamesHash, src/lib/cache.ts lines 124 to 131: the first ten
name:hours pairs joined by a vertical bar.  JS number stringification is
abstracted by the canonical rational rendering; the theorems below depend
only on it being a function of the hours value. -/
def generateGamesHash (games : List TopGame) : String :=
  String.intercalate ("|") ((games.take 10).map (fun g => g.name ++ ":" ++ toString g.hours))

/-- getCachedPersonality, src/lib/cache.ts lines 133 to 160: TTL check, then
fingerprint comparison; either failure deletes the record and reads as a
miss. -/
def getCachedPersonality {R : Type} (now : Int) (store : List (PersonalityCache R))
    (steamId : String) (currentGamesHash : String) :
    Option R × List (PersonalityCache R) :=
  match dexieGet (fun c => c.steamId) store steamId with
  | none => (none, store)
  | some cached =>
    if now - cached.timestamp > PERSONALITY_CACHE_DURATION then
      (none, dexieDelete (fun c => c.steamId) store steamId)
    else if !(cached.gamesHash == currentGamesHash) then
      (none, dexieDelete (fun c => c.steamId) store steamId)
    else
      (some cached.result, store)

/-- setCachedPersonality, src/lib/cache.ts lines 162 to 177. -/
def setCachedPersonality {R : Type} (now : Int) (store : List (PersonalityCache R))
    (steamId : String) (result : R) (topGames : List TopGame) :
    List (PersonalityCache R) :=
  dexiePut (fun c => c.steamId) store
    { steamId := steamId, result := result,
      gamesHash := generateGamesHash topGames, timestamp := now }

/-- getCachedGameDetails, src/lib/cache.ts lines 205 to 224: the only check
applied is the TTL; the record is returned whole otherwise. -/
def getCachedGameDetails (now : Int) (store : List GameDetails) (appid : Nat) :
    Option GameDetails × List GameDetails :=
  match dexieGet (fun d => d.appid) store appid with
  | none => (none, store)
  | some cached =>
    if now - cached.timestamp > GAME_DETAILS_CACHE_DURATION then
      (none, dexieDelete (fun d => d.appid) store appid)
    else
      (some cached, store)

/-- Truthiness of an optional JS string: undefined and the empty string are
falsy. -/
def jsTruthyString (s : Option String) : Bool :=
  match s with
  | none => false
  | some s => !(s == "")

/-- The cache-usability guard of ValueAnalysis.fetchPrices,
src/app/components/ValueAnalysis.tsx lines 114 to 119: the cached record is
used only when it exists, has a non-null price and a truthy currency. -/
def fetchPricesUsesCache (cached : Option GameDetails) : Bool :=
  match cached with
  | none => false
  | some c => c.price.isSome && jsTruthyString c.currency

/-- getCachedReviews, src/lib/cache.ts lines 343 to 361. -/
def getCachedReviews (now : Int) (store : List ReviewsCache) (steamId : String) :
    Option (List UserReview × Nat) × List ReviewsCache :=
  match dexieGet (fun c => c.steamId) store steamId with
  | none => (none, store)
  | some cached =>
    if now - cached.timestamp > REVIEWS_CACHE_DURATION then
      (none, dexieDelete (fun c => c.steamId) store steamId)
    else
      (some (cached.reviews, cached.totalReviews), store)

/-- Storage operations issued by the game-details batch read; the claims
about storage access are stated over this log. -/
inductive DetailsOp where
  | get (key : Nat)
  | bulkGet (keys : List Nat)
  | put (record : GameDetails)
  | bulkPut (records : List GameDetails)
  | delete (key : Nat)
deriving DecidableEq

/-- Result of getCachedGameDetailsMany: the JS Map, the store (the source
function performs no write or delete, so it is returned as received) and the
log of operations issued against the underlying store. -/
structure ManyReadResult where
  result : List (Nat × GameDetails)
  store : List GameDetails
  ops : List DetailsOp
deriving DecidableEq

/-- Body of the forEach of getCachedGameDetailsMany, src/lib/cache.ts lines
257 to 261: keep a bulkGet item when present and strictly fresher than the
TTL. -/
def detailsKeepFresh (now : Int) (result : List (Nat × GameDetails))
    (item : Option GameDetails) : List (Nat × GameDetails) :=
  match item with
  | some item =>
    if now - item.timestamp < GAME_DETAILS_CACHE_DURATION then
      mapSet result item.appid item
    else result
  | none => result

/-- getCachedGameDetailsMany, src/lib/cache.ts lines 247 to 266: a single
bulkGet, then the fresh items are collected into a Map.  Expired items are
filtered out but never deleted, and the bulkGet is issued even for an empty
id list. -/
def getCachedGameDetailsMany (now : Int) (store : List GameDetails)
    (appids : List Nat) : ManyReadResult :=
  let cached := appids.map (dexieGet (fun d => d.appid) store)
  { result := cached.foldl (detailsKeepFresh now) []
    store := store
    ops := [DetailsOp.bulkGet appids] }

/-- The per-id payload of the batch endpoint response (data.results values):
genres already projected to their description strings, the final field of
price_overview, the developers list and the metacritic score. -/
structure GameData where
  genres : Option (List String)
  priceOverviewFinal : Option Rat
  developers : Option (List String)
  metacritic : Option Rat
deriving DecidableEq

/-- Outcome of the batched fetch of fetchAndCacheGameDetails: a parsed
response body (entries of data.results, a null entry marking an unresolved
id), a non-success HTTP status, or a thrown transport or parse error. -/
inductive BatchFetchOutcome where
  | ok (results : List (Nat × Option GameData))
  | httpError (status : Nat)
  | thrown
deriving DecidableEq

/-- JS or-with-null on a number: a missing or zero value collapses to null
(zero is falsy). -/
def jsNumOrNull (x : Option Rat) : Option Rat :=
  match x with
  | none => none
  | some v => if v == 0 then none else some v

/-- The GameDetails record built for one successful response entry,
src/lib/cache.ts lines 308 to 317.  The batch path stores no currency. -/
def detailsFromResponse (now : Int) (appid : Nat) (g : GameData) : GameDetails :=
  { appid := appid
    genres := g.genres.getD []
    price := jsNumOrNull g.priceOverviewFinal
    developers := g.developers.getD []
    metacritic := g.metacritic
    currency := none
    timestamp := now }

/-- Dexie bulkPut: sequential puts. -/
def dexieBulkPut (store : List GameDetails) (records : List GameDetails) :
    List GameDetails :=
  records.foldl (dexiePut (fun d => d.appid)) store

/-- Result of fetchAndCacheGameDetails: the returned Map, the updated store
and the number of network requests issued. -/
structure BatchFetchResult where
  result : List (Nat × GameDetails)
  store : List GameDetails
  networkCalls : Nat
deriving DecidableEq

/-- Body of the response loop of fetchAndCacheGameDetails, src/lib/cache.ts
lines 303 to 322: a truthy entry is turned into a record, pushed onto
toCache and set into the returned map; a null entry is skipped. -/
def batchMergeStep (now : Int) (acc : List (Nat × GameDetails) × List GameDetails)
    (entry : Nat × Option GameData) : List (Nat × GameDetails) × List GameDetails :=
  match entry.2 with
  | some g =>
    let details := detailsFromResponse now entry.1 g
    (mapSet acc.1 entry.1 details, acc.2 ++ [details])
  | none => acc

/-- The uncachedAppids partition of fetchAndCacheGameDetails, src/lib/cache.ts
line 274: the requested ids with no entry in the cache-hit map. -/
def uncachedOf (now : Int) (store : List GameDetails) (appids : List Nat) : List Nat :=
  appids.filter (fun id => !(mapGet (getCachedGameDetailsMany now store appids).result id).isSome)

/-- The successful-response tail of fetchAndCacheGameDetails, src/lib/cache.ts
lines 298 to 331: merge the resolved entries into the hit map and bulkPut
them (the bulkPut is skipped when nothing was resolved). -/
def batchRequestMerge (now : Int) (store : List GameDetails)
    (cached : List (Nat × GameDetails)) (results : List (Nat × Option GameData)) :
    BatchFetchResult :=
  let acc := results.foldl (batchMergeStep now) (cached, ([] : List GameDetails))
  { result := acc.1
    store := if acc.2.isEmpty then store else dexieBulkPut store acc.2
    networkCalls := 1 }

/-- fetchAndCacheGameDetails, src/lib/cache.ts lines 269 to 337: partition
into cache hits and misses, return the hits immediately when nothing is
missing, otherwise issue one batched request; on a non-success status or a
thrown error the hit map is returned (the catch swallows the exception),
otherwise the resolved entries are cached via bulkPut and merged into the
returned map.  networkCalls counts the fetch invocations of the call. -/
def fetchAndCacheGameDetails (now : Int) (store : List GameDetails)
    (appids : List Nat) (response : BatchFetchOutcome) : BatchFetchResult :=
  if (uncachedOf now store appids).isEmpty then
    { result := (getCachedGameDetailsMany now store appids).result,
      store := store, networkCalls := 0 }
  else
    match response with
    | BatchFetchOutcome.httpError _ =>
      { result := (getCachedGameDetailsMany now store appids).result,
        store := store, networkCalls := 1 }
    | BatchFetchOutcome.thrown =>
      { result := (getCachedGameDetailsMany now store appids).result,
        store := store, networkCalls := 1 }
    | BatchFetchOutcome.ok results =>
      batchRequestMerge now store (getCachedGameDetailsMany now store appids).result results

/-- An HTTP response as seen by fetchWithRateLimit; ok is the standard
status range test. -/
structure HttpResponse where
  status : Nat
deriving DecidableEq

/-- response.ok: status between 200 and 299. -/
def HttpResponse.ok (r : HttpResponse) : Bool :=
  decide (200 ≤ r.status) && decide (r.status ≤ 299)

/-- maxRetries of fetchWithRateLimit, src/app/api/steam/app/[appid]/route.ts
line 19. -/
def maxRetries : Nat := 2

/-- The retry loop of fetchWithRateLimit, src/app/api/steam/app/[appid]/route.ts
lines 22 to 53, with the response of each attempt supplied by an oracle.
The first argument is the number of loop iterations still allowed by the
loop guard (maxRetries + 1 - attempt); exhausting it models falling out of
the for loop into the trailing throw.  The returned list collects the
backoff waits performed before retries. -/
def fetchRetryLoop (responses : Nat → HttpResponse) :
    Nat → Nat → Nat → Except String (HttpResponse × List Nat)
  | 0, _, _ => Except.error ("Max retries exceeded")
  | left + 1, attempt, delay =>
    let response := responses attempt
    if response.ok then Except.ok (response, [])
    else if (response.status == 403 || response.status == 429) &&
        decide (attempt < maxRetries) then
      match fetchRetryLoop responses left (attempt + 1) (delay * 2) with
      | Except.ok (r, waits) => Except.ok (r, delay :: waits)
      | Except.error e => Except.error e
    else Except.ok (response, [])

/-- fetchWithRateLimit retry behaviour: attempts start at 0 with a 2000 ms
backoff seed and the loop runs while attempt is at most maxRetries. -/
def fetchWithRateLimit (responses : Nat → HttpResponse) :
    Except String (HttpResponse × List Nat) :=
  fetchRetryLoop responses (maxRetries + 1) 0 2000

/-- An axis-aligned rectangle of the collage layout. -/
structure Rect where
  x : Rat
  y : Rat
  w : Rat
  h : Rat
deriving DecidableEq

/-- rectsOverlap, collage source lines 31 to 41: two rectangles overlap
unless one is entirely to the left, right, above or below the other. -/
def rectsOverlap (r1 r2 : Rect) : Bool :=
  !(decide (r1.x + r1.w ≤ r2.x) || decide (r2.x + r2.w ≤ r1.x) ||
    decide (r1.y + r1.h ≤ r2.y) || decide (r2.y + r2.h ≤ r1.y))

/-- An input box of spiralPlacement: a game with its computed width and
height.  The game payload is opaque. -/
structure InputBox (G : Type) where
  game : G
  w : Rat
  h : Rat
deriving DecidableEq

/-- GameBox, collage source lines 16 to 22: a placed box. -/
structure GameBox (G : Type) where
  game : G
  w : Rat
  h : Rat
  x : Rat
  y : Rat
deriving DecidableEq

/-- The rectangle of a placed box. -/
def GameBox.toRect {G : Type} (b : GameBox G) : Rect :=
  { x := b.x, y := b.y, w := b.w, h := b.h }

/-- hasOverlap, collage source lines 44 to 54: whether a candidate rectangle
overlaps any already placed box. -/
def hasOverlap {G : Type} (box : Rect) (placedBoxes : List (GameBox G)) : Bool :=
  placedBoxes.any (fun placed => rectsOverlap box placed.toRect)

/-- The floating-point routines used by the spiral search.  The invariants
proved below hold for every choice of these functions, which is exactly why
they are sound for the IEEE doubles of the source: every candidate position,
whatever cosine and sine produce, passes the explicit bounds and overlap
checks before being accepted. -/
structure FloatOps where
  pi : Rat
  cos : Rat → Rat
  sin : Rat → Rat
  sqrt : Rat → Rat

/-- The search step size, collage source line 79. -/
def spiralStep : Rat := 8

/-- Sample count at a radius, collage source lines 84 and 85: at least 8,
and growing with the circumference. -/
def numPointsAt (ops : FloatOps) (radius : Rat) : Nat :=
  max 8 (Int.toNat ⌊2 * ops.pi * radius / spiralStep⌋)

/-- One sampled candidate position, collage source lines 88 to 90. -/
def candidateAt (ops : FloatOps) (centerX centerY radius w h : Rat)
    (numPoints i : Nat) : Rat × Rat :=
  let angle := 2 * ops.pi * i / numPoints
  (centerX + ops.cos angle * radius - w / 2, centerY + ops.sin angle * radius - h / 2)

/-- Body of the inner sampling loop, collage source lines 87 to 112: skip a
candidate that is out of bounds or overlaps, otherwise keep the candidate
whose center is closest to the canvas center (the best distance starts at
Infinity, modelled by the empty accumulator). -/
def candidateStep {G : Type} (ops : FloatOps) (canvasWidth canvasHeight : Rat)
    (centerX centerY w h : Rat) (placed : List (GameBox G)) (radius : Rat)
    (numPoints : Nat) (best : Option ((Rat × Rat) × Rat)) (i : Nat) :
    Option ((Rat × Rat) × Rat) :=
  let c := candidateAt ops centerX centerY radius w h numPoints i
  let x := c.1
  let y := c.2
  if decide (x < 0) || decide (y < 0) || decide (x + w > canvasWidth) ||
      decide (y + h > canvasHeight) then best
  else if hasOverlap { x := x, y := y, w := w, h := h } placed then best
  else
    let dist := ops.sqrt ((x + w / 2 - centerX) ^ 2 + (y + h / 2 - centerY) ^ 2)
    match best with
    | none => some ((x, y), dist)
    | some (p, d) => if decide (dist < d) then some ((x, y), dist) else some (p, d)

/-- The full sampling pass at one radius. -/
def tryRadius {G : Type} (ops : FloatOps) (canvasWidth canvasHeight : Rat)
    (centerX centerY w h : Rat) (placed : List (GameBox G)) (radius : Rat) :
    Option ((Rat × Rat) × Rat) :=
  (List.range (numPointsAt ops radius)).foldl
    (candidateStep ops canvasWidth canvasHeight centerX centerY w h placed radius
      (numPointsAt ops radius)) none

/-- The radii visited by the outer loop of the spiral search, collage source
line 82: spiralStep, 2 * spiralStep, and so on, strictly below maxRadius. -/
def radiiList (maxRadius : Rat) : List Rat :=
  (List.range (Int.toNat (⌈maxRadius / spiralStep⌉ - 1))).map
    (fun k => spiralStep * ((k : Rat) + 1))

/-- The outer radius loop: stop at the first radius that yields a valid
position (collage source lines 82 and 115). -/
def searchRadii {G : Type} (ops : FloatOps) (canvasWidth canvasHeight : Rat)
    (centerX centerY w h : Rat) (placed : List (GameBox G)) :
    List Rat → Option ((Rat × Rat) × Rat)
  | [] => none
  | radius :: rest =>
    match tryRadius ops canvasWidth canvasHeight centerX centerY w h placed radius with
    | some best => some best
    | none => searchRadii ops canvasWidth canvasHeight centerX centerY w h placed rest

/-- Position search for one box, collage source lines 67 to 117: try the
exact canvas center first, otherwise spiral outward. -/
def findPosition {G : Type} (ops : FloatOps) (canvasWidth canvasHeight w h : Rat)
    (placed : List (GameBox G)) : Option (Rat × Rat) :=
  let centerX := canvasWidth / 2
  let centerY := canvasHeight / 2
  let startX := centerX - w / 2
  let startY := centerY - h / 2
  if !hasOverlap { x := startX, y := startY, w := w, h := h } placed then
    some (startX, startY)
  else
    (searchRadii ops canvasWidth canvasHeight centerX centerY w h placed
      (radiiList (max canvasWidth canvasHeight))).map (fun best => best.1)

/-- The placement loop of spiralPlacement, collage source lines 66 to 128: a
box with a found position is appended to the placed list, a box with none is
dropped. -/
def spiralPlacementGo {G : Type} (ops : FloatOps) (canvasWidth canvasHeight : Rat) :
    List (InputBox G) → List (GameBox G) → List (GameBox G)
  | [], placed => placed
  | box :: rest, placed =>
    match findPosition ops canvasWidth canvasHeight box.w box.h placed with
    | some pos =>
      spiralPlacementGo ops canvasWidth canvasHeight rest
        (placed ++ [{ game := box.game, w := box.w, h := box.h, x := pos.1, y := pos.2 }])
    | none => spiralPlacementGo ops canvasWidth canvasHeight rest placed

/-- spiralPlacement, collage source lines 57 to 131. -/
def spiralPlacement {G : Type} (boxes : List (InputBox G))
    (canvasWidth canvasHeight : Rat) (ops : FloatOps) : List (GameBox G) :=
  spiralPlacementGo ops canvasWidth canvasHeight boxes []

/-- The bounding box of the placed boxes. -/
structure Bounds where
  minX : Rat
  minY : Rat
  maxX : Rat
  maxY : Rat
deriving DecidableEq

/-- One step of getBoundingBox, collage source lines 145 to 150. -/
def boundsAdd {G : Type} (b : Bounds) (box : GameBox G) : Bounds :=
  { minX := min b.minX box.x
    minY := min b.minY box.y
    maxX := max b.maxX (box.x + box.w)
    maxY := max b.maxY (box.y + box.h) }

/-- getBoundingBox, collage source lines 134 to 153, on a nonempty list: the
source seeds the fold with Infinity in every component, which collapses to
the contribution of the first box, so the fold is seeded with the head. -/
def getBoundingBox {G : Type} (hd : GameBox G) (tl : List (GameBox G)) : Bounds :=
  tl.foldl boundsAdd
    { minX := hd.x, minY := hd.y, maxX := hd.x + hd.w, maxY := hd.y + hd.h }

/-- The padding of the collage normalization, collage source line 227. -/
def collagePadding : Rat := 40

/-- The normalization loop of generateCollage, collage source lines 235 to
238: translate every box so the bounding box starts at the padding inset,
shifted down by the header band. -/
def normalizeBoxes {G : Type} (placed : List (GameBox G)) (bounds : Bounds)
    (headerHeight : Rat) : List (GameBox G) :=
  placed.map (fun b =>
    { b with
      x := b.x - bounds.minX + collagePadding
      y := b.y - bounds.minY + collagePadding + headerHeight })

/-- logicalWidth of the final canvas, collage source line 230. -/
def logicalWidth (bounds : Bounds) : Rat :=
  bounds.maxX - bounds.minX + collagePadding * 2

/-- logicalHeight of the final canvas, collage source lines 231 and 232. -/
def logicalHeight (bounds : Bounds) (headerHeight : Rat) : Rat :=
  bounds.maxY - bounds.minY + collagePadding * 2 + headerHeight

/-- The bounding box bounds of one placed box. -/
def boundsContain {G : Type} (bounds : Bounds) (b : GameBox G) : Prop :=
  bounds.minX ≤ b.x ∧ b.x + b.w ≤ bounds.maxX ∧
  bounds.minY ≤ b.y ∧ b.y + b.h ≤ bounds.maxY

/-- Disjointness of two placed boxes under the AABB test of the source. -/
def disjointBoxes {G : Type} (a b : GameBox G) : Prop :=
  rectsOverlap a.toRect b.toRect = false

/-- A box lies within the final canvas. -/
def withinCanvas {G : Type} (bounds : Bounds) (headerHeight : Rat) (b : GameBox G) : Prop :=
  0 ≤ b.x ∧ b.x + b.w ≤ logicalWidth bounds ∧
  0 ≤ b.y ∧ b.y + b.h ≤ logicalHeight bounds headerHeight

/-- Concrete float routines used by witnesses only; any values work for the
invariants. -/
def witnessOps : FloatOps :=
  { pi := 3, cos := fun _ => 0, sin := fun _ => 0, sqrt := fun q => q }

/-! Helper lemmas on the table and map models. -/

theorem dexieGet_key_eq {α κ : Type} [BEq κ] [LawfulBEq κ] (key : α → κ)
    (store : List α) (k : κ) (r : α) (h : dexieGet key store k = some r) :
    key r = k := by
  induction store with
  | nil => simp [dexieGet] at h
  | cons r' rest ih =>
    rw [dexieGet] at h
    by_cases hk : key r' == k
    · rw [if_pos hk] at h
      cases h
      exact eq_of_beq hk
    · rw [if_neg hk] at h
      exact ih h

theorem dexieGet_dexieDelete_self {α κ : Type} [BEq κ] [LawfulBEq κ] (key : α → κ)
    (store : List α) (k : κ) :
    dexieGet key (dexieDelete key store k) k = none := by
  induction store with
  | nil => rfl
  | cons r rest ih =>
    rw [dexieDelete, List.filter_cons]
    by_cases hk : key r == k
    · simp only [hk, Bool.not_true, if_neg]
      exact ih
    · have hk' : (key r == k) = false := by
        simpa using hk
      simp only [hk', Bool.not_false, if_pos]
      rw [dexieGet, if_neg (by simp [hk'])]
      exact ih

theorem dexieGet_dexiePut_self {α κ : Type} [BEq κ] [LawfulBEq κ] (key : α → κ)
    (store : List α) (r : α) :
    dexieGet key (dexiePut key store r) (key r) = some r := by
  induction store with
  | nil => simp [dexiePut, dexieGet]
  | cons r' rest ih =>
    rw [dexiePut]
    by_cases hk : key r' == key r
    · rw [if_pos hk, dexieGet, if_pos (by simp)]
    · rw [if_neg hk, dexieGet, if_neg hk]
      exact ih

theorem dexieGet_dexiePut_ne {α κ : Type} [BEq κ] [LawfulBEq κ] (key : α → κ)
    (store : List α) (r : α) (k : κ) (h : (key r == k) = false) :
    dexieGet key (dexiePut key store r) k = dexieGet key store k := by
  induction store with
  | nil => simp [dexiePut, dexieGet, h]
  | cons r' rest ih =>
    rw [dexiePut]
    by_cases hk : key r' == key r
    · have hr' : key r' = key r := eq_of_beq hk
      rw [if_pos hk, dexieGet, if_neg (by simp [h, hr']), dexieGet,
        if_neg (by simp [hr']; simpa using h)]
    · rw [if_neg hk, dexieGet, dexieGet]
      by_cases hk2 : key r' == k
      · rw [if_pos hk2, if_pos hk2]
      · rw [if_neg hk2, if_neg hk2]
        exact ih

theorem mapGet_mapSet_self {κ α : Type} [BEq κ] [LawfulBEq κ]
    (m : List (κ × α)) (k : κ) (v : α) :
    mapGet (mapSet m k v) k = some v := by
  induction m with
  | nil => simp [mapSet, mapGet]
  | cons p rest ih =>
    rw [mapSet]
    by_cases hp : (p.1 == k) = true
    · rw [if_pos hp, mapGet]
      simp
    · rw [if_neg hp, mapGet, if_neg hp]
      exact ih

theorem mapGet_mapSet_ne {κ α : Type} [BEq κ] [LawfulBEq κ]
    (m : List (κ × α)) (k id : κ) (v : α) (h : (k == id) = false) :
    mapGet (mapSet m k v) id = mapGet m id := by
  induction m with
  | nil => simp [mapSet, mapGet, h]
  | cons p rest ih =>
    rw [mapSet]
    by_cases hp : (p.1 == k) = true
    · have hpk : p.1 = k := eq_of_beq hp
      rw [if_pos hp]
      conv_lhs => rw [mapGet]
      conv_rhs => rw [mapGet]
      rw [if_neg (by simp [h]), if_neg (by rw [hpk]; simp [h])]
    · rw [if_neg hp]
      conv_lhs => rw [mapGet]
      conv_rhs => rw [mapGet]
      by_cases hq : (p.1 == id) = true
      · rw [if_pos hq, if_pos hq]
      · rw [if_neg hq, if_neg hq]
        exact ih

theorem mapGet_mapSet_isSome {κ α : Type} [BEq κ] [LawfulBEq κ]
    (m : List (κ × α)) (k id : κ) (v : α)
    (h : (mapGet m id).isSome) : (mapGet (mapSet m k v) id).isSome := by
  by_cases hk : (k == id) = true
  · have : k = id := eq_of_beq hk
    rw [this, mapGet_mapSet_self]
    rfl
  · rw [mapGet_mapSet_ne m k id v (by simpa using hk)]
    exact h

/-! Claim C1. -/

/-- C1, counterexample: a metadata record with a non-null price and no
currency marker, far from TTL expiry, is returned whole by
getCachedGameDetails, not treated as absent; the single-record get applies
only the TTL rule. -/
theorem getCachedGameDetails_currencyless_returned :
    (getCachedGameDetails 0 [⟨1, [], some 999, [], none, none, 0⟩] 1).1 =
      some ⟨1, [], some 999, [], none, none, 0⟩ ∧
    (⟨1, [], some 999, [], none, none, 0⟩ : GameDetails).price ≠ none ∧
    (⟨1, [], some 999, [], none, none, 0⟩ : GameDetails).currency = none ∧
    ¬((0 : Int) - (⟨1, [], some 999, [], none, none, 0⟩ : GameDetails).timestamp >
      GAME_DETAILS_CACHE_DURATION) := by
  refine ⟨rfl, by simp, rfl, by decide⟩

/-- C1, amended: getCachedGameDetails returns a currency-less record with a
non-null price (subject only to the TTL); the guard lives in the caller:
ValueAnalysis.fetchPrices refuses to use such a record, so the cached price
is treated as a miss and refetched. -/
theorem valueAnalysis_rejects_currencyless (now : Int) (store : List GameDetails)
    (appid : Nat) (c : GameDetails)
    (h1 : (getCachedGameDetails now store appid).1 = some c)
    (h2 : c.price ≠ none)
    (h3 : jsTruthyString c.currency = false) :
    (getCachedGameDetails now store appid).1 ≠ none ∧
    fetchPricesUsesCache (getCachedGameDetails now store appid).1 = false := by
  constructor
  · rw [h1]; simp
  · rw [h1]
    simp [fetchPricesUsesCache, h3]

/-- Witness for the amended C1 theorem at a concrete store. -/
theorem valueAnalysis_rejects_currencyless_witness :
    (getCachedGameDetails 0 [⟨2, [], some 999, [], none, none, 0⟩] 2).1 ≠ none ∧
    fetchPricesUsesCache
      (getCachedGameDetails 0 [⟨2, [], some 999, [], none, none, 0⟩] 2).1 = false :=
  valueAnalysis_rejects_currencyless 0 [⟨2, [], some 999, [], none, none, 0⟩] 2
    ⟨2, [], some 999, [], none, none, 0⟩ rfl (by simp) rfl

/-! Claim C2. -/

/-- C2: for a stored personality record that is not TTL-expired,
getCachedPersonality returns the stored payload exactly when the supplied
hash equals the stored fingerprint; on a mismatch it returns none and the
record is deleted from the store. -/
theorem getCachedPersonality_fingerprint {R : Type} (now : Int)
    (store : List (PersonalityCache R)) (sid hash : String) (c : PersonalityCache R)
    (hfound : dexieGet (fun x => x.steamId) store sid = some c)
    (hfresh : ¬(now - c.timestamp > PERSONALITY_CACHE_DURATION)) :
    ((getCachedPersonality now store sid hash).1 = some c.result ↔ c.gamesHash = hash) ∧
    (c.gamesHash ≠ hash →
      getCachedPersonality now store sid hash =
        (none, dexieDelete (fun x => x.steamId) store sid) ∧
      dexieGet (fun x => x.steamId)
        (dexieDelete (fun x => x.steamId) store sid) sid = none) := by
  unfold getCachedPersonality
  rw [hfound]
  simp only [if_neg hfresh]
  by_cases hh : c.gamesHash = hash
  · simp [hh]
  · have hb : (c.gamesHash == hash) = false := by
      simpa using hh
    simp [hb, hh, dexieGet_dexieDelete_self]

/-- Witness for C2 at a concrete store with a mismatching fingerprint. -/
theorem getCachedPersonality_fingerprint_witness :
    ((getCachedPersonality 0
        ([⟨("a"), (7 : Nat), ("h1"), 0⟩] : List (PersonalityCache Nat)) ("a") ("h2")).1 =
        some 7 ↔ ("h1" : String) = ("h2")) ∧
    (("h1" : String) ≠ ("h2") →
      getCachedPersonality 0
          ([⟨("a"), (7 : Nat), ("h1"), 0⟩] : List (PersonalityCache Nat)) ("a") ("h2") =
        (none, dexieDelete (fun x => x.steamId)
          ([⟨("a"), (7 : Nat), ("h1"), 0⟩] : List (PersonalityCache Nat)) ("a")) ∧
      dexieGet (fun x => x.steamId)
        (dexieDelete (fun x => x.steamId)
          ([⟨("a"), (7 : Nat), ("h1"), 0⟩] : List (PersonalityCache Nat)) ("a")) ("a") =
        none) :=
  getCachedPersonality_fingerprint 0
    ([⟨("a"), (7 : Nat), ("h1"), 0⟩] : List (PersonalityCache Nat)) ("a") ("h2")
    ⟨("a"), (7 : Nat), ("h1"), 0⟩ (by decide) (by decide)

/-! Claim C9. -/

/-- C9, counterexample: the empty-list batch read returns an empty map but
still issues a bulkGet against the underlying store; there is no empty-input
fast path, so the read is not free of storage access. -/
theorem getMany_empty_accesses_store :
    getCachedGameDetailsMany 0 [] [] =
      { result := [], store := [], ops := [DetailsOp.bulkGet []] } ∧
    ([DetailsOp.bulkGet []] : List DetailsOp) ≠ [] := by
  exact ⟨rfl, by simp⟩

/-- C9, amended: for every store and time, the empty-list batch read returns
an empty map, reads no record and does not modify the store, but it does
issue one (vacuous) bulkGet operation against the store. -/
theorem getMany_empty_spec (now : Int) (store : List GameDetails) :
    getCachedGameDetailsMany now store [] =
      { result := [], store := store, ops := [DetailsOp.bulkGet []] } := rfl

/-! Claim C10. -/

/-- C10: the personality fingerprint depends only on the first ten entries
of the top-games list: two lists with equal first ten (name, hours) pairs
hash identically, the hash is the name:hours pairs joined by a vertical bar,
and setCachedPersonality stores the same fingerprint for both lists. -/
theorem generateGamesHash_take10 {R : Type} (l1 l2 : List TopGame)
    (now : Int) (store : List (PersonalityCache R)) (sid : String) (r : R)
    (h : l1.take 10 = l2.take 10) :
    generateGamesHash l1 = generateGamesHash l2 ∧
    generateGamesHash l1 =
      String.intercalate ("|")
        ((l1.take 10).map (fun g => g.name ++ ":" ++ toString g.hours)) ∧
    setCachedPersonality now store sid r l1 = setCachedPersonality now store sid r l2 := by
  have hg : generateGamesHash l1 = generateGamesHash l2 := by
    unfold generateGamesHash
    rw [h]
  refine ⟨hg, rfl, ?_⟩
  unfold setCachedPersonality
  rw [hg]

/-- Witness for C10: two eleven-entry lists agreeing on the first ten
entries and differing in the eleventh produce the same stored state. -/
theorem generateGamesHash_take10_witness :
    generateGamesHash
        [⟨("a"), 1⟩, ⟨("b"), 2⟩, ⟨("c"), 3⟩, ⟨("d"), 4⟩, ⟨("e"), 5⟩,
         ⟨("f"), 6⟩, ⟨("g"), 7⟩, ⟨("h"), 8⟩, ⟨("i"), 9⟩, ⟨("j"), 10⟩, ⟨("k"), 11⟩] =
      generateGamesHash
        [⟨("a"), 1⟩, ⟨("b"), 2⟩, ⟨("c"), 3⟩, ⟨("d"), 4⟩, ⟨("e"), 5⟩,
         ⟨("f"), 6⟩, ⟨("g"), 7⟩, ⟨("h"), 8⟩, ⟨("i"), 9⟩, ⟨("j"), 10⟩, ⟨("z"), 99⟩] ∧
    setCachedPersonality 0 ([] : List (PersonalityCache Nat)) ("s") 5
        [⟨("a"), 1⟩, ⟨("b"), 2⟩, ⟨("c"), 3⟩, ⟨("d"), 4⟩, ⟨("e"), 5⟩,
         ⟨("f"), 6⟩, ⟨("g"), 7⟩, ⟨("h"), 8⟩, ⟨("i"), 9⟩, ⟨("j"), 10⟩, ⟨("k"), 11⟩] =
      setCachedPersonality 0 ([] : List (PersonalityCache Nat)) ("s") 5
        [⟨("a"), 1⟩, ⟨("b"), 2⟩, ⟨("c"), 3⟩, ⟨("d"), 4⟩, ⟨("e"), 5⟩,
         ⟨("f"), 6⟩, ⟨("g"), 7⟩, ⟨("h"), 8⟩, ⟨("i"), 9⟩, ⟨("j"), 10⟩, ⟨("z"), 99⟩] :=
  ⟨(generateGamesHash_take10
      [⟨("a"), 1⟩, ⟨("b"), 2⟩, ⟨("c"), 3⟩, ⟨("d"), 4⟩, ⟨("e"), 5⟩,
       ⟨("f"), 6⟩, ⟨("g"), 7⟩, ⟨("h"), 8⟩, ⟨("i"), 9⟩, ⟨("j"), 10⟩, ⟨("k"), 11⟩]
      [⟨("a"), 1⟩, ⟨("b"), 2⟩, ⟨("c"), 3⟩, ⟨("d"), 4⟩, ⟨("e"), 5⟩,
       ⟨("f"), 6⟩, ⟨("g"), 7⟩, ⟨("h"), 8⟩, ⟨("i"), 9⟩, ⟨("j"), 10⟩, ⟨("z"), 99⟩]
      0 ([] : List (PersonalityCache Nat)) ("s") 5 (by decide)).1,
   (generateGamesHash_take10
      [⟨("a"), 1⟩, ⟨("b"), 2⟩, ⟨("c"), 3⟩, ⟨("d"), 4⟩, ⟨("e"), 5⟩,
       ⟨("f"), 6⟩, ⟨("g"), 7⟩, ⟨("h"), 8⟩, ⟨("i"), 9⟩, ⟨("j"), 10⟩, ⟨("k"), 11⟩]
      [⟨("a"), 1⟩, ⟨("b"), 2⟩, ⟨("c"), 3⟩, ⟨("d"), 4⟩, ⟨("e"), 5⟩,
       ⟨("f"), 6⟩, ⟨("g"), 7⟩, ⟨("h"), 8⟩, ⟨("i"), 9⟩, ⟨("j"), 10⟩, ⟨("z"), 99⟩]
      0 ([] : List (PersonalityCache Nat)) ("s") 5 (by decide)).2.2⟩

/-! Soundness of the batch-read fold: every map entry comes from a fresh
store record, and every fresh store record for a requested id yields an
entry. -/

theorem detailsFold_sound (now : Int) (store : List GameDetails)
    (appids : List Nat) :
    ∀ (acc : List (Nat × GameDetails)) (id : Nat) (d : GameDetails),
      mapGet ((appids.map (dexieGet (fun x => x.appid) store)).foldl
        (detailsKeepFresh now) acc) id = some d →
      mapGet acc id = some d ∨
        (dexieGet (fun x => x.appid) store id = some d ∧
          now - d.timestamp < GAME_DETAILS_CACHE_DURATION) := by
  induction appids with
  | nil =>
    intro acc id d h
    exact Or.inl h
  | cons a as ih =>
    intro acc id d h
    rw [List.map_cons, List.foldl_cons] at h
    rcases ih (detailsKeepFresh now acc (dexieGet (fun x => x.appid) store a)) id d h
      with h2 | h2
    · cases hga : dexieGet (fun x => x.appid) store a with
      | none =>
        rw [hga] at h2
        exact Or.inl h2
      | some item =>
        rw [hga] at h2
        simp only [detailsKeepFresh] at h2
        by_cases hf : now - item.timestamp < GAME_DETAILS_CACHE_DURATION
        · rw [if_pos hf] at h2
          by_cases hk : (item.appid == id) = true
          · have hki : item.appid = id := eq_of_beq hk
            rw [hki, mapGet_mapSet_self] at h2
            injection h2 with h2
            subst h2
            have hia : item.appid = a := dexieGet_key_eq _ store a item hga
            refine Or.inr ⟨?_, hf⟩
            rw [← hki, hia]
            exact hga
          · rw [mapGet_mapSet_ne _ _ _ _ (by simpa using hk)] at h2
            exact Or.inl h2
        · rw [if_neg hf] at h2
          exact Or.inl h2
    · exact Or.inr h2

theorem detailsFold_mem (now : Int) (store : List GameDetails) (appids : List Nat) :
    ∀ (acc : List (Nat × GameDetails)) (id : Nat),
      ((mapGet acc id).isSome ∨
        (id ∈ appids ∧ ∃ d, dexieGet (fun x => x.appid) store id = some d ∧
          now - d.timestamp < GAME_DETAILS_CACHE_DURATION)) →
      (mapGet ((appids.map (dexieGet (fun x => x.appid) store)).foldl
        (detailsKeepFresh now) acc) id).isSome := by
  induction appids with
  | nil =>
    intro acc id h
    rcases h with h | ⟨hmem, _⟩
    · simpa using h
    · simp at hmem
  | cons a as ih =>
    intro acc id h
    rw [List.map_cons, List.foldl_cons]
    apply ih
    rcases h with h | ⟨hmem, d, hd, hf⟩
    · left
      cases hga : dexieGet (fun x => x.appid) store a with
      | none => simpa [detailsKeepFresh, hga] using h
      | some item =>
        simp only [detailsKeepFresh, hga]
        by_cases hfr : now - item.timestamp < GAME_DETAILS_CACHE_DURATION
        · rw [if_pos hfr]
          exact mapGet_mapSet_isSome _ _ _ _ h
        · rw [if_neg hfr]
          exact h
    · rcases List.mem_cons.mp hmem with rfl | hmem2
      · left
        simp only [detailsKeepFresh, hd]
        rw [if_pos hf, dexieGet_key_eq _ store id d hd, mapGet_mapSet_self]
        rfl
      · right
        exact ⟨hmem2, d, hd, hf⟩

/-! Claim C3. -/

/-- C3, counterexample: a TTL-expired metadata record read through the
batch reader getCachedGameDetailsMany is absent from the returned map, but
the stale record is NOT deleted: the function issues only a bulkGet and the
record is still retrievable from the store it returns. -/
theorem getMany_expired_not_deleted :
    getCachedGameDetailsMany (GAME_DETAILS_CACHE_DURATION + 1)
        [⟨3, [], none, [], none, none, 0⟩] [3] =
      { result := [], store := [⟨3, [], none, [], none, none, 0⟩],
        ops := [DetailsOp.bulkGet [3]] } ∧
    (GAME_DETAILS_CACHE_DURATION + 1) - (0 : Int) > GAME_DETAILS_CACHE_DURATION ∧
    dexieGet (fun x => x.appid)
      (getCachedGameDetailsMany (GAME_DETAILS_CACHE_DURATION + 1)
        [⟨3, [], none, [], none, none, 0⟩] [3]).store 3 =
      some ⟨3, [], none, [], none, none, 0⟩ := by
  refine ⟨by decide, by decide, by decide⟩

/-- C3, amended: reads through the four single-record getters return absent
past the TTL of their collection and delete the stale record as a side
effect; the batch reader getCachedGameDetailsMany also returns absent for a
TTL-expired record, but performs no deletion: it issues only the bulkGet
and returns the store unmodified. -/
theorem ttl_reads_spec {R : Type} (now : Int) (gstore : List GamesCache)
    (pstore : List (PersonalityCache R)) (dstore : List GameDetails)
    (rstore : List ReviewsCache) (sid hash : String) (appid : Nat)
    (appids : List Nat) :
    (∀ c, dexieGet (fun x => x.steamId) gstore sid = some c →
      now - c.timestamp > GAMES_CACHE_DURATION →
      getCachedGames now gstore sid =
        (none, dexieDelete (fun x => x.steamId) gstore sid) ∧
      dexieGet (fun x => x.steamId)
        (dexieDelete (fun x => x.steamId) gstore sid) sid = none) ∧
    (∀ c, dexieGet (fun x => x.steamId) pstore sid = some c →
      now - c.timestamp > PERSONALITY_CACHE_DURATION →
      getCachedPersonality now pstore sid hash =
        (none, dexieDelete (fun x => x.steamId) pstore sid) ∧
      dexieGet (fun x => x.steamId)
        (dexieDelete (fun x => x.steamId) pstore sid) sid = none) ∧
    (∀ c, dexieGet (fun x => x.appid) dstore appid = some c →
      now - c.timestamp > GAME_DETAILS_CACHE_DURATION →
      getCachedGameDetails now dstore appid =
        (none, dexieDelete (fun x => x.appid) dstore appid) ∧
      dexieGet (fun x => x.appid)
        (dexieDelete (fun x => x.appid) dstore appid) appid = none) ∧
    (∀ c, dexieGet (fun x => x.steamId) rstore sid = some c →
      now - c.timestamp > REVIEWS_CACHE_DURATION →
      getCachedReviews now rstore sid =
        (none, dexieDelete (fun x => x.steamId) rstore sid) ∧
      dexieGet (fun x => x.steamId)
        (dexieDelete (fun x => x.steamId) rstore sid) sid = none) ∧
    (∀ c, dexieGet (fun x => x.appid) dstore appid = some c →
      now - c.timestamp > GAME_DETAILS_CACHE_DURATION →
      mapGet (getCachedGameDetailsMany now dstore appids).result appid = none ∧
      (getCachedGameDetailsMany now dstore appids).store = dstore ∧
      (getCachedGameDetailsMany now dstore appids).ops = [DetailsOp.bulkGet appids]) := by
  refine ⟨?_, ?_, ?_, ?_, ?_⟩
  · intro c hc hexp
    refine ⟨?_, dexieGet_dexieDelete_self _ gstore sid⟩
    simp [getCachedGames, hc, hexp]
  · intro c hc hexp
    refine ⟨?_, dexieGet_dexieDelete_self _ pstore sid⟩
    simp [getCachedPersonality, hc, hexp]
  · intro c hc hexp
    refine ⟨?_, dexieGet_dexieDelete_self _ dstore appid⟩
    simp [getCachedGameDetails, hc, hexp]
  · intro c hc hexp
    refine ⟨?_, dexieGet_dexieDelete_self _ rstore sid⟩
    simp [getCachedReviews, hc, hexp]
  · intro c hc hexp
    refine ⟨?_, rfl, rfl⟩
    cases hm : mapGet (getCachedGameDetailsMany now dstore appids).result appid with
    | none => rfl
    | some d =>
      exfalso
      simp only [getCachedGameDetailsMany] at hm
      rcases detailsFold_sound now dstore appids [] appid d hm with h | ⟨hd, hf⟩
      · simp [mapGet] at h
      · rw [hc] at hd
        cases hd
        omega

/-- Witness for the amended C3 theorem: a concrete expired record in each
collection at one concrete time past every TTL. -/
theorem ttl_reads_spec_witness :
    (getCachedGames 3000000000 [⟨("s"), [], 0⟩] ("s") =
        (none, ([] : List GamesCache)) ∧
      dexieGet (fun x => x.steamId) ([] : List GamesCache) ("s") = none) ∧
    (getCachedPersonality 3000000000
        ([⟨("s"), (1 : Nat), ("h"), 0⟩] : List (PersonalityCache Nat)) ("s") ("h") =
        (none, ([] : List (PersonalityCache Nat))) ∧
      dexieGet (fun x => x.steamId) ([] : List (PersonalityCache Nat)) ("s") = none) ∧
    (getCachedGameDetails 3000000000 [⟨5, [], none, [], none, none, 0⟩] 5 =
        (none, ([] : List GameDetails)) ∧
      dexieGet (fun x => x.appid) ([] : List GameDetails) 5 = none) ∧
    (getCachedReviews 3000000000 [⟨("s"), [], 0, 0⟩] ("s") =
        (none, ([] : List ReviewsCache)) ∧
      dexieGet (fun x => x.steamId) ([] : List ReviewsCache) ("s") = none) ∧
    (mapGet (getCachedGameDetailsMany 3000000000
        [⟨5, [], none, [], none, none, 0⟩] [5]).result 5 = none ∧
      (getCachedGameDetailsMany 3000000000
        [⟨5, [], none, [], none, none, 0⟩] [5]).store =
        [⟨5, [], none, [], none, none, 0⟩] ∧
      (getCachedGameDetailsMany 3000000000
        [⟨5, [], none, [], none, none, 0⟩] [5]).ops = [DetailsOp.bulkGet [5]]) := by
  have T := ttl_reads_spec 3000000000 [⟨("s"), [], 0⟩]
    ([⟨("s"), (1 : Nat), ("h"), 0⟩] : List (PersonalityCache Nat))
    [⟨5, [], none, [], none, none, 0⟩] [⟨("s"), [], 0, 0⟩] ("s") ("h") 5 [5]
  exact ⟨T.1 ⟨("s"), [], 0⟩ (by decide) (by decide),
    T.2.1 ⟨("s"), (1 : Nat), ("h"), 0⟩ (by decide) (by decide),
    T.2.2.1 ⟨5, [], none, [], none, none, 0⟩ (by decide) (by decide),
    T.2.2.2.1 ⟨("s"), [], 0, 0⟩ (by decide) (by decide),
    T.2.2.2.2 ⟨5, [], none, [], none, none, 0⟩ (by decide) (by decide)⟩

/-! Lemmas on the response-merge fold and on bulkPut. -/

theorem batchFold_toCache_mono (now : Int) :
    ∀ (results : List (Nat × Option GameData))
      (acc : List (Nat × GameDetails) × List GameDetails) (d : GameDetails),
      d ∈ acc.2 → d ∈ (results.foldl (batchMergeStep now) acc).2 := by
  intro results
  induction results with
  | nil => intro acc d h; exact h
  | cons r rs ih =>
    intro acc d h
    rw [List.foldl_cons]
    apply ih
    cases hr : r.2 with
    | none => simpa [batchMergeStep, hr] using h
    | some g =>
      simp only [batchMergeStep, hr]
      exact List.mem_append_left _ h

theorem batchFold_toCache_timestamp (now : Int) :
    ∀ (results : List (Nat × Option GameData))
      (acc : List (Nat × GameDetails) × List GameDetails),
      (∀ d ∈ acc.2, d.timestamp = now) →
      ∀ d ∈ (results.foldl (batchMergeStep now) acc).2, d.timestamp = now := by
  intro results
  induction results with
  | nil => intro acc h; exact h
  | cons r rs ih =>
    intro acc h
    rw [List.foldl_cons]
    apply ih
    cases hr : r.2 with
    | none => simpa [batchMergeStep, hr] using h
    | some g =>
      simp only [batchMergeStep, hr]
      intro d hd
      rcases List.mem_append.mp hd with hd | hd
      · exact h d hd
      · rcases List.mem_singleton.mp hd with rfl
        rfl

theorem batchFold_toCache_covers (now : Int) :
    ∀ (results : List (Nat × Option GameData))
      (acc : List (Nat × GameDetails) × List GameDetails)
      (p : Nat × Option GameData), p ∈ results → p.2.isSome →
      ∃ d ∈ (results.foldl (batchMergeStep now) acc).2, d.appid = p.1 := by
  intro results
  induction results with
  | nil =>
    intro acc p h
    simp at h
  | cons r rs ih =>
    intro acc p hmem hsome
    rw [List.foldl_cons]
    rcases List.mem_cons.mp hmem with rfl | hmem2
    · cases hr : p.2 with
      | none => rw [hr] at hsome; simp at hsome
      | some g =>
        refine ⟨detailsFromResponse now p.1 g, ?_, rfl⟩
        apply batchFold_toCache_mono
        simp [batchMergeStep, hr]
    · exact ih _ p hmem2 hsome

theorem batchFold_result_untouched (now : Int) :
    ∀ (results : List (Nat × Option GameData))
      (acc : List (Nat × GameDetails) × List GameDetails) (id : Nat),
      (∀ p ∈ results, p.1 = id → p.2 = none) →
      mapGet (results.foldl (batchMergeStep now) acc).1 id = mapGet acc.1 id := by
  intro results
  induction results with
  | nil => intro acc id _; rfl
  | cons r rs ih =>
    intro acc id h
    rw [List.foldl_cons]
    rw [ih _ id (fun p hp => h p (List.mem_cons_of_mem r hp))]
    cases hr : r.2 with
    | none => simp [batchMergeStep, hr]
    | some g =>
      have hne : r.1 ≠ id := by
        intro hcontra
        have := h r (List.mem_cons_self r rs) hcontra
        rw [hr] at this
        cases this
      simp only [batchMergeStep, hr]
      exact mapGet_mapSet_ne _ _ _ _ (by simpa using hne)

theorem batchFold_toCache_excluded (now : Int) :
    ∀ (results : List (Nat × Option GameData))
      (acc : List (Nat × GameDetails) × List GameDetails) (id : Nat),
      (∀ p ∈ results, p.1 = id → p.2 = none) →
      (∀ d ∈ acc.2, d.appid ≠ id) →
      ∀ d ∈ (results.foldl (batchMergeStep now) acc).2, d.appid ≠ id := by
  intro results
  induction results with
  | nil => intro acc id _ hacc; exact hacc
  | cons r rs ih =>
    intro acc id h hacc
    rw [List.foldl_cons]
    apply ih _ id (fun p hp => h p (List.mem_cons_of_mem r hp))
    cases hr : r.2 with
    | none => simpa [batchMergeStep, hr] using hacc
    | some g =>
      simp only [batchMergeStep, hr]
      intro d hd
      rcases List.mem_append.mp hd with hd | hd
      · exact hacc d hd
      · rcases List.mem_singleton.mp hd with rfl
        intro hcontra
        have := h r (List.mem_cons_self r rs) hcontra
        rw [hr] at this
        cases this

theorem dexieGet_dexieBulkPut_none (records : List GameDetails) :
    ∀ (store : List GameDetails) (id : Nat), (∀ d ∈ records, d.appid ≠ id) →
      dexieGet (fun x => x.appid) (dexieBulkPut store records) id =
        dexieGet (fun x => x.appid) store id := by
  induction records with
  | nil => intro store id _; rfl
  | cons r rs ih =>
    intro store id h
    have : dexieBulkPut store (r :: rs) =
        dexieBulkPut (dexiePut (fun x => x.appid) store r) rs := rfl
    rw [this, ih _ id (fun d hd => h d (List.mem_cons_of_mem r hd))]
    exact dexieGet_dexiePut_ne _ store r id
      (by simpa using h r (List.mem_cons_self r rs))

theorem dexieGet_dexieBulkPut_mem (records : List GameDetails) :
    ∀ (store : List GameDetails) (id : Nat), (∃ d ∈ records, d.appid = id) →
      ∃ d, d ∈ records ∧
        dexieGet (fun x => x.appid) (dexieBulkPut store records) id = some d := by
  induction records with
  | nil =>
    intro store id h
    simp at h
  | cons r rs ih =>
    intro store id h
    have hbp : dexieBulkPut store (r :: rs) =
        dexieBulkPut (dexiePut (fun x => x.appid) store r) rs := rfl
    by_cases hrs : ∃ d ∈ rs, d.appid = id
    · obtain ⟨d, hd, hget⟩ := ih (dexiePut (fun x => x.appid) store r) id hrs
      exact ⟨d, List.mem_cons_of_mem r hd, by rw [hbp]; exact hget⟩
    · have hr : r.appid = id := by
        rcases h with ⟨d, hd, hdid⟩
        rcases List.mem_cons.mp hd with rfl | hd2
        · exact hdid
        · exact absurd ⟨d, hd2, hdid⟩ hrs
      refine ⟨r, List.mem_cons_self r rs, ?_⟩
      rw [hbp, dexieGet_dexieBulkPut_none rs _ id (by
        intro d hd hcontra
        exact hrs ⟨d, hd, hcontra⟩)]
      rw [← hr]
      exact dexieGet_dexiePut_self _ store r

theorem fetchAndCache_immediate (now : Int) (store : List GameDetails)
    (appids : List Nat) (response : BatchFetchOutcome)
    (h : ((uncachedOf now store appids).isEmpty : Bool) = true) :
    fetchAndCacheGameDetails now store appids response =
      { result := (getCachedGameDetailsMany now store appids).result,
        store := store, networkCalls := 0 } := by
  unfold fetchAndCacheGameDetails
  rw [if_pos h]

/-! Claim C6. -/

/-- C6: when the batched request fails, with a non-success status or a
thrown transport or parse error, fetchAndCacheGameDetails returns exactly
the cache-hit map gathered before the request and leaves the store
untouched; in the embedding the thrown error is consumed by the catch
block, so the function is total and never propagates an exception. -/
theorem fetchAndCache_failure_returns_hits (now : Int) (store : List GameDetails)
    (appids : List Nat) (status : Nat) :
    (fetchAndCacheGameDetails now store appids
        (BatchFetchOutcome.httpError status)).result =
      (getCachedGameDetailsMany now store appids).result ∧
    (fetchAndCacheGameDetails now store appids
        (BatchFetchOutcome.httpError status)).store = store ∧
    (fetchAndCacheGameDetails now store appids BatchFetchOutcome.thrown).result =
      (getCachedGameDetailsMany now store appids).result ∧
    (fetchAndCacheGameDetails now store appids BatchFetchOutcome.thrown).store = store := by
  unfold fetchAndCacheGameDetails
  refine ⟨?_, ?_, ?_, ?_⟩ <;> (split <;> rfl)

/-! Claim C5. -/

/-- C5: a requested id that was not a cache hit and that the remote response
omits or marks unsuccessful ends up neither in the returned map nor written
to the metadata cache: its store entry is exactly what it was before the
call. -/
theorem fetchAndCache_unresolved_not_cached (now : Int) (store : List GameDetails)
    (appids : List Nat) (results : List (Nat × Option GameData)) (id : Nat)
    (hid : id ∈ appids)
    (hmiss : mapGet (getCachedGameDetailsMany now store appids).result id = none)
    (hunres : ∀ p ∈ results, p.1 = id → p.2 = none) :
    mapGet (fetchAndCacheGameDetails now store appids
      (BatchFetchOutcome.ok results)).result id = none ∧
    dexieGet (fun x => x.appid)
      (fetchAndCacheGameDetails now store appids
        (BatchFetchOutcome.ok results)).store id =
      dexieGet (fun x => x.appid) store id := by
  unfold fetchAndCacheGameDetails
  by_cases hemp : ((uncachedOf now store appids).isEmpty : Bool) = true
  · rw [if_pos hemp]
    exact ⟨hmiss, rfl⟩
  · rw [if_neg hemp]
    constructor
    · show mapGet (results.foldl (batchMergeStep now)
        ((getCachedGameDetailsMany now store appids).result,
          ([] : List GameDetails))).1 id = none
      rw [batchFold_result_untouched now results _ id hunres]
      exact hmiss
    · have hex : ∀ d ∈ (results.foldl (batchMergeStep now)
          ((getCachedGameDetailsMany now store appids).result,
            ([] : List GameDetails))).2, d.appid ≠ id :=
        batchFold_toCache_excluded now results _ id hunres (by simp)
      show dexieGet (fun x => x.appid)
          (if (results.foldl (batchMergeStep now)
              ((getCachedGameDetailsMany now store appids).result,
                ([] : List GameDetails))).2.isEmpty then store
           else dexieBulkPut store (results.foldl (batchMergeStep now)
              ((getCachedGameDetailsMany now store appids).result,
                ([] : List GameDetails))).2) id =
        dexieGet (fun x => x.appid) store id
      by_cases htc : ((results.foldl (batchMergeStep now)
          ((getCachedGameDetailsMany now store appids).result,
            ([] : List GameDetails))).2.isEmpty : Bool) = true
      · rw [if_pos htc]
      · rw [if_neg htc]
        exact dexieGet_dexieBulkPut_none _ store id hex

/-- Witness for C5: requesting ids 1, 2, 3 with the remote resolving only 1
and 3 leaves id 2 absent from the result and unwritten in the store. -/
theorem fetchAndCache_unresolved_not_cached_witness :
    mapGet (fetchAndCacheGameDetails 0 [] [1, 2, 3]
      (BatchFetchOutcome.ok
        [(1, some ⟨none, some 999, none, none⟩),
         (3, some ⟨none, some 499, none, none⟩)])).result 2 = none ∧
    dexieGet (fun x => x.appid)
      (fetchAndCacheGameDetails 0 [] [1, 2, 3]
        (BatchFetchOutcome.ok
          [(1, some ⟨none, some 999, none, none⟩),
           (3, some ⟨none, some 499, none, none⟩)])).store 2 =
      dexieGet (fun x => x.appid) [] 2 :=
  fetchAndCache_unresolved_not_cached 0 [] [1, 2, 3]
    [(1, some ⟨none, some 999, none, none⟩),
     (3, some ⟨none, some 499, none, none⟩)] 2
    (by decide) (by decide) (by decide)

/-! Claim C4. -/

/-- C4, counterexample: with an empty cache, a request for id 2 whose remote
response resolves nothing leaves the store unchanged, and a second identical
call at the same instant (no intervening cache change, no TTL expiry) still
issues one network request, because the unresolved id is retried. -/
theorem fetchAndCache_second_call_network :
    (fetchAndCacheGameDetails 0 [] [2] (BatchFetchOutcome.ok [])).networkCalls = 1 ∧
    (fetchAndCacheGameDetails 0 [] [2] (BatchFetchOutcome.ok [])).store = [] ∧
    (fetchAndCacheGameDetails 0
      (fetchAndCacheGameDetails 0 [] [2] (BatchFetchOutcome.ok [])).store
      [2] (BatchFetchOutcome.ok [])).networkCalls = 1 := by
  exact ⟨rfl, rfl, rfl⟩

/-- C4, amended: if the first call's response successfully resolves every
requested id that was not already a cache hit (in particular if nothing was
missing), then a second call with the same id list, the same time and no
intervening cache change finds the miss partition empty and returns the
cache-hit map immediately with zero network requests. -/
theorem fetchAndCache_idempotent_of_resolved (now : Int) (store : List GameDetails)
    (appids : List Nat) (results : List (Nat × Option GameData))
    (response2 : BatchFetchOutcome)
    (hres : ∀ id ∈ appids,
      (mapGet (getCachedGameDetailsMany now store appids).result id).isSome ∨
      ∃ p ∈ results, p.1 = id ∧ p.2.isSome) :
    fetchAndCacheGameDetails now
      (fetchAndCacheGameDetails now store appids (BatchFetchOutcome.ok results)).store
      appids response2 =
    { result := (getCachedGameDetailsMany now
        (fetchAndCacheGameDetails now store appids (BatchFetchOutcome.ok results)).store
        appids).result,
      store := (fetchAndCacheGameDetails now store appids
        (BatchFetchOutcome.ok results)).store,
      networkCalls := 0 } := by
  have hpos : (0 : Int) < GAME_DETAILS_CACHE_DURATION := by decide
  -- every requested id has a fresh record in the store left by the first call
  have key : ∀ id ∈ appids, ∃ d,
      dexieGet (fun x => x.appid)
        (fetchAndCacheGameDetails now store appids
          (BatchFetchOutcome.ok results)).store id = some d ∧
      now - d.timestamp < GAME_DETAILS_CACHE_DURATION := by
    intro id hid
    by_cases hemp1 : ((uncachedOf now store appids).isEmpty : Bool) = true
    · -- no miss: the first call returned the store unchanged and id was a hit
      have hS1 : (fetchAndCacheGameDetails now store appids
          (BatchFetchOutcome.ok results)).store = store := by
        unfold fetchAndCacheGameDetails
        rw [if_pos hemp1]
      have hfil : (appids.filter (fun id =>
          !(mapGet (getCachedGameDetailsMany now store appids).result id).isSome)) = [] := by
        have := List.isEmpty_iff.mp hemp1
        simpa [uncachedOf] using this
      have hin : (mapGet (getCachedGameDetailsMany now store appids).result id).isSome := by
        by_contra hno
        have : id ∈ appids.filter (fun id =>
            !(mapGet (getCachedGameDetailsMany now store appids).result id).isSome) := by
          rw [List.mem_filter]
          exact ⟨hid, by simpa using hno⟩
        rw [hfil] at this
        simp at this
      obtain ⟨d, hd⟩ := Option.isSome_iff_exists.mp hin
      have hd2 := hd
      simp only [getCachedGameDetailsMany] at hd2
      rcases detailsFold_sound now store appids [] id d hd2 with h | ⟨hget, hfr⟩
      · simp [mapGet] at h
      · exact ⟨d, by rw [hS1]; exact hget, hfr⟩
    · -- a batched request happened; the store is the merged one
      have hS1 : (fetchAndCacheGameDetails now store appids
          (BatchFetchOutcome.ok results)).store =
          (if (results.foldl (batchMergeStep now)
              ((getCachedGameDetailsMany now store appids).result,
                ([] : List GameDetails))).2.isEmpty then store
           else dexieBulkPut store (results.foldl (batchMergeStep now)
              ((getCachedGameDetailsMany now store appids).result,
                ([] : List GameDetails))).2) := by
        unfold fetchAndCacheGameDetails
        rw [if_neg hemp1]
        rfl
      have fresh_of_mem : (∃ dd ∈ (results.foldl (batchMergeStep now)
          ((getCachedGameDetailsMany now store appids).result,
            ([] : List GameDetails))).2, dd.appid = id) →
          ∃ d, dexieGet (fun x => x.appid)
            (fetchAndCacheGameDetails now store appids
              (BatchFetchOutcome.ok results)).store id = some d ∧
            now - d.timestamp < GAME_DETAILS_CACHE_DURATION := by
        intro hin
        obtain ⟨dd, hddmem, hddget⟩ := dexieGet_dexieBulkPut_mem _ store id hin
        have hts : dd.timestamp = now :=
          batchFold_toCache_timestamp now results _ (by simp) dd hddmem
        have hTCne : ¬((results.foldl (batchMergeStep now)
            ((getCachedGameDetailsMany now store appids).result,
              ([] : List GameDetails))).2.isEmpty : Bool) = true := by
          obtain ⟨dd2, hdd2, _⟩ := hin
          intro habs
          rw [List.isEmpty_iff.mp habs] at hdd2
          simp at hdd2
        refine ⟨dd, ?_, ?_⟩
        · rw [hS1, if_neg hTCne]
          exact hddget
        · rw [hts]
          omega
      rcases hres id hid with hin | ⟨p, hpmem, hp1, hp2⟩
      · obtain ⟨c, hc⟩ := Option.isSome_iff_exists.mp hin
        have hc2 := hc
        simp only [getCachedGameDetailsMany] at hc2
        rcases detailsFold_sound now store appids [] id c hc2 with h | ⟨hget, hfr⟩
        · simp [mapGet] at h
        · by_cases hinTC : ∃ dd ∈ (results.foldl (batchMergeStep now)
              ((getCachedGameDetailsMany now store appids).result,
                ([] : List GameDetails))).2, dd.appid = id
          · exact fresh_of_mem hinTC
          · have hnone : ∀ dd ∈ (results.foldl (batchMergeStep now)
                ((getCachedGameDetailsMany now store appids).result,
                  ([] : List GameDetails))).2, dd.appid ≠ id := by
              intro dd hdd hcontra
              exact hinTC ⟨dd, hdd, hcontra⟩
            refine ⟨c, ?_, hfr⟩
            rw [hS1]
            by_cases hTC : ((results.foldl (batchMergeStep now)
                ((getCachedGameDetailsMany now store appids).result,
                  ([] : List GameDetails))).2.isEmpty : Bool) = true
            · rw [if_pos hTC]
              exact hget
            · rw [if_neg hTC, dexieGet_dexieBulkPut_none _ store id hnone]
              exact hget
      · apply fresh_of_mem
        have := batchFold_toCache_covers now results
          ((getCachedGameDetailsMany now store appids).result,
            ([] : List GameDetails)) p hpmem hp2
        rw [hp1] at this
        exact this
  -- the second call therefore has an empty miss partition
  have hall : ∀ id ∈ appids,
      (mapGet (getCachedGameDetailsMany now
        (fetchAndCacheGameDetails now store appids
          (BatchFetchOutcome.ok results)).store appids).result id).isSome := by
    intro id hid
    obtain ⟨d, hget, hfr⟩ := key id hid
    simp only [getCachedGameDetailsMany]
    exact detailsFold_mem now _ appids [] id (Or.inr ⟨hid, d, hget, hfr⟩)
  have hemp2 : ((uncachedOf now
      (fetchAndCacheGameDetails now store appids
        (BatchFetchOutcome.ok results)).store appids).isEmpty : Bool) = true := by
    rw [List.isEmpty_iff]
    unfold uncachedOf
    rw [List.filter_eq_nil_iff]
    intro a ha
    simp [hall a ha]
  exact fetchAndCache_immediate now _ appids response2 hemp2

/-- Witness for the amended C4 theorem: one id, resolved by the first call;
the second call is a pure cache hit with zero network requests. -/
theorem fetchAndCache_idempotent_of_resolved_witness :
    fetchAndCacheGameDetails 0
      (fetchAndCacheGameDetails 0 [] [1]
        (BatchFetchOutcome.ok [(1, some ⟨none, none, none, none⟩)])).store
      [1] BatchFetchOutcome.thrown =
    { result := (getCachedGameDetailsMany 0
        (fetchAndCacheGameDetails 0 [] [1]
          (BatchFetchOutcome.ok [(1, some ⟨none, none, none, none⟩)])).store
        [1]).result,
      store := (fetchAndCacheGameDetails 0 [] [1]
        (BatchFetchOutcome.ok [(1, some ⟨none, none, none, none⟩)])).store,
      networkCalls := 0 } :=
  fetchAndCache_idempotent_of_resolved 0 [] [1]
    [(1, some ⟨none, none, none, none⟩)] BatchFetchOutcome.thrown (by decide)

/-! Claim C7: the retry loop of fetchWithRateLimit. -/

theorem fetchRetryLoop_spec (responses : Nat → HttpResponse) :
    ∀ (n a d : Nat), a + n = maxRetries + 1 → 1 ≤ n →
    ∃ i, a ≤ i ∧ i ≤ maxRetries ∧
      fetchRetryLoop responses n a d =
        Except.ok (responses i, (List.range (i - a)).map (fun k => d * 2 ^ k)) ∧
      (∀ j, a ≤ j → j < i → (responses j).ok = false ∧
        ((responses j).status = 403 ∨ (responses j).status = 429)) ∧
      (i < maxRetries → (responses i).ok = true ∨
        ((responses i).status ≠ 403 ∧ (responses i).status ≠ 429)) := by
  intro n
  induction n with
  | zero =>
    intro a d hsum hone
    omega
  | succ m ih =>
    intro a d hsum _
    by_cases hok : (responses a).ok = true
    · refine ⟨a, le_refl a, by omega, ?_, ?_, ?_⟩
      · simp [fetchRetryLoop, hok]
      · intro j hj1 hj2
        omega
      · intro _
        exact Or.inl hok
    · have hokf : (responses a).ok = false := by simpa using hok
      by_cases hcond : (((responses a).status == 403 || (responses a).status == 429) &&
          decide (a < maxRetries)) = true
      · have hparts := Bool.and_eq_true_iff.mp hcond
        have ha : a < maxRetries := of_decide_eq_true hparts.2
        have hthr : (responses a).status = 403 ∨ (responses a).status = 429 := by
          rcases Bool.or_eq_true_iff.mp hparts.1 with h | h
          · exact Or.inl (eq_of_beq h)
          · exact Or.inr (eq_of_beq h)
        obtain ⟨i, hai, him, heq, hjs, hlast⟩ := ih (a + 1) (d * 2) (by omega) (by omega)
        refine ⟨i, by omega, him, ?_, ?_, hlast⟩
        · simp only [fetchRetryLoop, hokf, hcond]
          rw [heq]
          have hm : i - a = (i - (a + 1)) + 1 := by omega
          rw [hm]
          have hfe : (fun k => d * 2 ^ k) ∘ Nat.succ = (fun k => d * 2 * 2 ^ k) := by
            funext k
            simp [Function.comp, pow_succ]
            ring
          simp [List.range_succ_eq_map, List.map_map, hfe]
        · intro j hja hji
          by_cases hj : j = a
          · subst hj
            exact ⟨hokf, hthr⟩
          · exact hjs j (by omega) hji
      · have hcondf : (((responses a).status == 403 || (responses a).status == 429) &&
            decide (a < maxRetries)) = false := by
          simpa using hcond
        refine ⟨a, le_refl a, by omega, ?_, ?_, ?_⟩
        · simp [fetchRetryLoop, hokf, hcondf]
        · intro j hj1 hj2
          omega
        · intro ha
          right
          have hd : decide (a < maxRetries) = true := decide_eq_true ha
          rw [hd, Bool.and_true] at hcondf
          have hparts := Bool.or_eq_false_iff.mp hcondf
          constructor
          · intro hc
            rw [hc] at hparts
            simp at hparts
          · intro hc
            rw [hc] at hparts
            simp at hparts

/-- C7: for any sequence of responses, the retry loop of fetchWithRateLimit
terminates by returning, inside the loop, the response of some attempt i at
most maxRetries (so the trailing throw is never reached and the caller
receives the final failed response rather than an exception); the waits
performed before retries are 2000 ms doubling at each step; every attempt
before i received a non-ok throttling response (status 403 or 429); and if
the loop stopped before exhausting the retries, attempt i was either ok or
a non-throttling failure returned immediately without retry. -/
theorem fetchWithRateLimit_spec (responses : Nat → HttpResponse) :
    ∃ i, i ≤ maxRetries ∧
      fetchWithRateLimit responses =
        Except.ok (responses i, (List.range i).map (fun k => 2000 * 2 ^ k)) ∧
      (∀ j, j < i → (responses j).ok = false ∧
        ((responses j).status = 403 ∨ (responses j).status = 429)) ∧
      (i < maxRetries → (responses i).ok = true ∨
        ((responses i).status ≠ 403 ∧ (responses i).status ≠ 429)) := by
  obtain ⟨i, _, him, heq, hjs, hlast⟩ :=
    fetchRetryLoop_spec responses (maxRetries + 1) 0 2000 (by omega) (by omega)
  refine ⟨i, him, ?_, ?_, hlast⟩
  · unfold fetchWithRateLimit
    rw [heq]
    simp
  · intro j hj
    exact hjs j (Nat.zero_le j) hj

/-- Closed instance of the C7 retry characterization at a constant
non-throttling failure response. -/
theorem fetchWithRateLimit_spec_witness :
    ∃ i, i ≤ maxRetries ∧
      fetchWithRateLimit (fun _ => ⟨500⟩) =
        Except.ok ((⟨500⟩ : HttpResponse), (List.range i).map (fun k => 2000 * 2 ^ k)) ∧
      (∀ j, j < i → (⟨500⟩ : HttpResponse).ok = false ∧
        ((⟨500⟩ : HttpResponse).status = 403 ∨ (⟨500⟩ : HttpResponse).status = 429)) ∧
      (i < maxRetries → (⟨500⟩ : HttpResponse).ok = true ∨
        ((⟨500⟩ : HttpResponse).status ≠ 403 ∧ (⟨500⟩ : HttpResponse).status ≠ 429)) :=
  fetchWithRateLimit_spec (fun _ => ⟨500⟩)

/-! Claim C8: the collage layout invariants. -/

theorem rectsOverlap_eq_false_iff (r1 r2 : Rect) :
    rectsOverlap r1 r2 = false ↔
      (r1.x + r1.w ≤ r2.x ∨ r2.x + r2.w ≤ r1.x ∨
        r1.y + r1.h ≤ r2.y ∨ r2.y + r2.h ≤ r1.y) := by
  simp only [rectsOverlap, Bool.not_eq_false', Bool.or_eq_true, decide_eq_true_eq]
  tauto

theorem rectsOverlap_comm_false (r1 r2 : Rect) (h : rectsOverlap r1 r2 = false) :
    rectsOverlap r2 r1 = false := by
  rw [rectsOverlap_eq_false_iff] at h ⊢
  tauto

theorem hasOverlap_eq_false_iff {G : Type} (box : Rect) (placed : List (GameBox G)) :
    hasOverlap box placed = false ↔
      ∀ p ∈ placed, rectsOverlap box p.toRect = false := by
  simp [hasOverlap, List.any_eq_false]

theorem candidateStep_valid {G : Type} (ops : FloatOps)
    (canvasWidth canvasHeight centerX centerY w h : Rat)
    (placed : List (GameBox G)) (radius : Rat) (numPoints : Nat)
    (best : Option ((Rat × Rat) × Rat)) (i : Nat)
    (hbest : ∀ p dd, best = some (p, dd) →
      hasOverlap { x := p.1, y := p.2, w := w, h := h } placed = false) :
    ∀ p dd, candidateStep ops canvasWidth canvasHeight centerX centerY w h placed
        radius numPoints best i = some (p, dd) →
      hasOverlap { x := p.1, y := p.2, w := w, h := h } placed = false := by
  intro p dd hres
  simp only [candidateStep] at hres
  split at hres
  · exact hbest p dd hres
  · split at hres
    · exact hbest p dd hres
    · next hov =>
      have hovf : hasOverlap
          { x := (candidateAt ops centerX centerY radius w h numPoints i).1,
            y := (candidateAt ops centerX centerY radius w h numPoints i).2,
            w := w, h := h } placed = false := by
        simpa using hov
      split at hres
      · rw [Option.some.injEq] at hres
        injection hres with he1 he2
        subst he1
        exact hovf
      · next q dq =>
        split at hres
        · rw [Option.some.injEq] at hres
          injection hres with he1 he2
          subst he1
          exact hovf
        · rw [Option.some.injEq] at hres
          injection hres with he1 he2
          subst he1
          exact hbest q dq rfl

theorem foldl_candidateStep_valid {G : Type} (ops : FloatOps)
    (canvasWidth canvasHeight centerX centerY w h : Rat)
    (placed : List (GameBox G)) (radius : Rat) (numPoints : Nat) :
    ∀ (l : List Nat) (best : Option ((Rat × Rat) × Rat)),
      (∀ p dd, best = some (p, dd) →
        hasOverlap { x := p.1, y := p.2, w := w, h := h } placed = false) →
      ∀ p dd, l.foldl (candidateStep ops canvasWidth canvasHeight centerX centerY w h
          placed radius numPoints) best = some (p, dd) →
        hasOverlap { x := p.1, y := p.2, w := w, h := h } placed = false := by
  intro l
  induction l with
  | nil => intro best hbest; exact hbest
  | cons i rest ih =>
    intro best hbest
    rw [List.foldl_cons]
    exact ih _ (candidateStep_valid ops canvasWidth canvasHeight centerX centerY w h
      placed radius numPoints best i hbest)

theorem tryRadius_valid {G : Type} (ops : FloatOps)
    (canvasWidth canvasHeight centerX centerY w h : Rat)
    (placed : List (GameBox G)) (radius : Rat) (p : Rat × Rat) (dd : Rat)
    (hres : tryRadius ops canvasWidth canvasHeight centerX centerY w h placed radius =
      some (p, dd)) :
    hasOverlap { x := p.1, y := p.2, w := w, h := h } placed = false := by
  unfold tryRadius at hres
  exact foldl_candidateStep_valid ops canvasWidth canvasHeight centerX centerY w h
    placed radius _ _ none (by intro p dd h; cases h) p dd hres

theorem searchRadii_valid {G : Type} (ops : FloatOps)
    (canvasWidth canvasHeight centerX centerY w h : Rat)
    (placed : List (GameBox G)) :
    ∀ (radii : List Rat) (p : Rat × Rat) (dd : Rat),
      searchRadii ops canvasWidth canvasHeight centerX centerY w h placed radii =
        some (p, dd) →
      hasOverlap { x := p.1, y := p.2, w := w, h := h } placed = false := by
  intro radii
  induction radii with
  | nil =>
    intro p dd hsr
    simp [searchRadii] at hsr
  | cons radius rest ih =>
    intro p dd hsr
    simp only [searchRadii] at hsr
    cases htr : tryRadius ops canvasWidth canvasHeight centerX centerY w h placed radius with
    | none =>
      rw [htr] at hsr
      exact ih p dd hsr
    | some best =>
      rw [htr] at hsr
      rw [Option.some.injEq] at hsr
      subst hsr
      exact tryRadius_valid ops canvasWidth canvasHeight centerX centerY w h
        placed radius p dd htr

theorem findPosition_valid {G : Type} (ops : FloatOps) (canvasWidth canvasHeight w h : Rat)
    (placed : List (GameBox G)) (pos : Rat × Rat)
    (hres : findPosition ops canvasWidth canvasHeight w h placed = some pos) :
    hasOverlap { x := pos.1, y := pos.2, w := w, h := h } placed = false := by
  simp only [findPosition] at hres
  split at hres
  · next hcenter =>
    rw [Option.some.injEq] at hres
    rw [← hres]
    simpa using hcenter
  · rw [Option.map_eq_some'] at hres
    obtain ⟨best, hbest, hfst⟩ := hres
    rw [← hfst]
    exact searchRadii_valid ops canvasWidth canvasHeight _ _ w h placed _ best.1 best.2
      (by rw [← hbest])

theorem spiralPlacementGo_pairwise {G : Type} (ops : FloatOps)
    (canvasWidth canvasHeight : Rat) :
    ∀ (boxes : List (InputBox G)) (placed : List (GameBox G)),
      placed.Pairwise disjointBoxes →
      (spiralPlacementGo ops canvasWidth canvasHeight boxes placed).Pairwise disjointBoxes := by
  intro boxes
  induction boxes with
  | nil => intro placed h; exact h
  | cons box rest ih =>
    intro placed h
    cases hf : findPosition ops canvasWidth canvasHeight box.w box.h placed with
    | none =>
      simp only [spiralPlacementGo, hf]
      exact ih placed h
    | some pos =>
      simp only [spiralPlacementGo, hf]
      apply ih
      rw [List.pairwise_append]
      refine ⟨h, List.pairwise_singleton _ _, ?_⟩
      intro a ha b hb
      rw [List.mem_singleton] at hb
      subst hb
      have hno := findPosition_valid ops canvasWidth canvasHeight box.w box.h placed pos hf
      rw [hasOverlap_eq_false_iff] at hno
      exact rectsOverlap_comm_false _ _ (hno a ha)

theorem foldl_boundsAdd_expand {G : Type} :
    ∀ (l : List (GameBox G)) (init : Bounds),
      (l.foldl boundsAdd init).minX ≤ init.minX ∧
      (l.foldl boundsAdd init).minY ≤ init.minY ∧
      init.maxX ≤ (l.foldl boundsAdd init).maxX ∧
      init.maxY ≤ (l.foldl boundsAdd init).maxY := by
  intro l
  induction l with
  | nil => intro init; exact ⟨le_refl _, le_refl _, le_refl _, le_refl _⟩
  | cons b bs ih =>
    intro init
    rw [List.foldl_cons]
    obtain ⟨h1, h2, h3, h4⟩ := ih (boundsAdd init b)
    exact ⟨le_trans h1 (min_le_left _ _), le_trans h2 (min_le_left _ _),
      le_trans (le_max_left _ _) h3, le_trans (le_max_left _ _) h4⟩

theorem foldl_boundsAdd_contains {G : Type} :
    ∀ (l : List (GameBox G)) (init : Bounds) (b : GameBox G), b ∈ l →
      boundsContain (l.foldl boundsAdd init) b := by
  intro l
  induction l with
  | nil =>
    intro init b h
    simp at h
  | cons c cs ih =>
    intro init b hb
    rw [List.foldl_cons]
    rcases List.mem_cons.mp hb with rfl | hb2
    · obtain ⟨h1, h2, h3, h4⟩ := foldl_boundsAdd_expand cs (boundsAdd init b)
      exact ⟨le_trans h1 (min_le_right _ _), le_trans (le_max_right _ _) h3,
        le_trans h2 (min_le_right _ _), le_trans (le_max_right _ _) h4⟩
    · exact ih (boundsAdd init c) b hb2

theorem getBoundingBox_contains {G : Type} (hd : GameBox G) (tl : List (GameBox G)) :
    ∀ b ∈ hd :: tl, boundsContain (getBoundingBox hd tl) b := by
  intro b hb
  rcases List.mem_cons.mp hb with rfl | hb2
  · obtain ⟨h1, h2, h3, h4⟩ :=
      foldl_boundsAdd_expand tl
        { minX := b.x, minY := b.y, maxX := b.x + b.w, maxY := b.y + b.h }
    exact ⟨h1, h3, h2, h4⟩
  · exact foldl_boundsAdd_contains tl _ b hb2

/-- C8: for any input boxes, canvas size and floating-point routines, (a) no
two rectangles placed by spiralPlacement overlap under the AABB test of the
source, and (b) after the bounding-box normalization with padding (and a
nonnegative header band), every placed rectangle lies entirely within the
final canvas of logicalWidth by logicalHeight. -/
theorem collage_layout_sound {G : Type} (boxes : List (InputBox G))
    (canvasWidth canvasHeight : Rat) (ops : FloatOps) (headerHeight : Rat)
    (hheader : 0 ≤ headerHeight) :
    (spiralPlacement boxes canvasWidth canvasHeight ops).Pairwise disjointBoxes ∧
    (∀ hd tl, spiralPlacement boxes canvasWidth canvasHeight ops = hd :: tl →
      ∀ b ∈ normalizeBoxes (hd :: tl) (getBoundingBox hd tl) headerHeight,
        withinCanvas (getBoundingBox hd tl) headerHeight b) := by
  constructor
  · exact spiralPlacementGo_pairwise ops canvasWidth canvasHeight boxes [] List.Pairwise.nil
  · intro hd tl _ b hb
    rw [normalizeBoxes, List.mem_map] at hb
    obtain ⟨b0, hb0, rfl⟩ := hb
    obtain ⟨h1, h2, h3, h4⟩ := getBoundingBox_contains hd tl b0 hb0
    have hpad : (0 : Rat) ≤ collagePadding := by norm_num [collagePadding]
    simp only [withinCanvas, logicalWidth, logicalHeight]
    refine ⟨by linarith, by linarith, by linarith, by linarith⟩

/-- Witness for C8 at a concrete input: one 2 by 1 box on a 10 by 10 working
canvas with an 80 unit header. -/
theorem collage_layout_sound_witness :
    (0 : Rat) ≤ 80 ∧
    ((spiralPlacement [⟨(0 : Nat), 2, 1⟩] 10 10 witnessOps).Pairwise disjointBoxes ∧
      (∀ hd tl, spiralPlacement [⟨(0 : Nat), 2, 1⟩] 10 10 witnessOps = hd :: tl →
        ∀ b ∈ normalizeBoxes (hd :: tl) (getBoundingBox hd tl) 80,
          withinCanvas (getBoundingBox hd tl) 80 b)) :=
  ⟨by norm_num, collage_layout_sound [⟨(0 : Nat), 2, 1⟩] 10 10 witnessOps 80 (by norm_num)⟩

end SteamStats
